import Mathlib

/-!
# `thanos bucket ls`: enumeration and metadata rendering

A shallow embedding of `runBucketList` (`cmd/thanos/bucket.go`).  The function is a
sequential program over external collaborators (the object-storage bucket, the JSON
codec, the template engine and the standard output stream).  The collaborators are
gathered in an environment record `Env`; everything the program does to them is
recorded in an explicit `World` that is threaded through the code.
-/

namespace Thanos

/-! ## Go values -/

/-- Go strings are byte sequences. -/
abbrev GoString := List UInt8

/-- The bytes of an ASCII literal. -/
def ascii (s : String) : GoString := s.toList.map (fun c => UInt8.ofNat c.toNat)

/-- The path separator `/`. -/
def sep : UInt8 := 47

/-- The line terminator appended by `fmt.Fprintln`. -/
def newline : UInt8 := 10

/-- Go's slice expression `s[:hi]` with an `int` bound: the result when
`0 ≤ hi ≤ len(s)`, and `none` (a run-time panic) otherwise. -/
def sliceTo (s : GoString) (hi : Int) : Option GoString :=
  if 0 ≤ hi ∧ hi ≤ (s.length : Int) then some (s.take hi.toNat) else none

/-- Go `error` values as built by `github.com/pkg/errors`: a base error, or an error
wrapped with a message by `errors.Wrap`. -/
inductive GoError where
  | base (msg : GoString)
  | wrap (cause : GoError) (msg : GoString)
  deriving DecidableEq, Repr

/-- The text of `err.Error()`: a wrapped error prints as `msg: cause`. -/
def GoError.text : GoError → GoString
  | .base m => m
  | .wrap c m => m ++ ascii ": " ++ c.text

/-- The messages added by `errors.Wrap`, outermost first. -/
def GoError.annotations : GoError → List GoString
  | .base _ => []
  | .wrap c m => m :: c.annotations

/-- The sentinel `context.DeadlineExceeded`. -/
def DeadlineExceeded : GoError := .base (ascii "context deadline exceeded")

/-- What a Go function of result type `error` can do: return `nil`, return an error,
or panic. -/
inductive Result where
  | nil
  | err (e : GoError)
  | panic
  deriving DecidableEq, Repr

/-- Whether a result is a returned (non-nil) error. -/
def Result.isErr : Result → Bool
  | .err _ => true
  | _ => false

/-- One minute, in nanoseconds (`time.Minute`). -/
def minute : Nat := 60 * 1000000000

/-- A context derived from `context.Background()` by `context.WithTimeout`, identified
by its timeout in nanoseconds. -/
structure Ctx where
  timeout : Nat
  deriving DecidableEq, Repr

/-- Calls made on the bucket handle. -/
inductive Call where
  | iter (ctx : Ctx) (dir : GoString)
  | get (ctx : Ctx) (name : GoString)
  deriving DecidableEq, Repr

/-! ## The world and the collaborators -/

/-- The state the program acts on.  `writes` lists the payload of every `Write` issued
on `os.Stdout`, oldest first, and `stdout` holds the bytes the stream accepted;
`calls` is the trace of bucket accesses; `openStreams` are the handles of read streams
that are open, `nextStream` the handle the next opened stream gets. -/
structure World where
  stdout : GoString
  writes : List GoString
  calls : List Call
  openStreams : List Nat
  nextStream : Nat
  deriving DecidableEq, Repr

/-- The external collaborators of `runBucketList`, for a metadata type `Meta`
(`block.Meta`) and a parsed-template type `Tmpl` (`*template.Template`).

* `newClient`: the error of `storage.NewClient`, if any;
* `join`: `path.Join` on two elements;
* `list dir`: the entry names the backend enumerates under `dir`, and the error the
  enumeration ends with, if any;
* `ctxDone k`: whether the context is done when the enumeration looks at it for the
  `k`-th time (`k = 0` is the look before the first entry);
* `iterWrap`: the context the enumeration adds to a callback failure;
* `get name`: the content of the object `name`, or the error of opening it;
* `decode`: `json.NewDecoder(rc).Decode`;
* `encode`: the text `json.Encoder.Encode` writes for a document (one `Write`);
* `parse`: `template.New("").Parse`;
* `execute t m`: the chunks `t.Execute` writes for `m`, in order, and the error the
  expansion ends with, if any;
* `writeErr k`: the error of the `k`-th `Write` on `os.Stdout`, if it fails. -/
structure Env (Meta Tmpl : Type) where
  newClient : Option GoError
  join : GoString → GoString → GoString
  list : GoString → List GoString × Option GoError
  ctxDone : Nat → Bool
  iterWrap : GoError → GoError
  get : GoString → Except GoError GoString
  decode : GoString → Except GoError Meta
  encode : Meta → Except GoError GoString
  parse : GoString → Except GoError Tmpl
  execute : Tmpl → Meta → List GoString × Option GoError
  writeErr : Nat → Option GoError

variable {Meta Tmpl : Type}

/-- One `Write` on `os.Stdout`: the payload is recorded; it reaches the stream unless
the write fails. -/
def osWrite (env : Env Meta Tmpl) (p : GoString) (w : World) : Option GoError × World :=
  match env.writeErr w.writes.length with
  | none => (none, { w with stdout := w.stdout ++ p, writes := w.writes ++ [p] })
  | some e => (some e, { w with writes := w.writes ++ [p] })

/-- The call `fmt.Fprintln(os.Stdout, s)`: one write of `s` and a newline. -/
def fprintln (env : Env Meta Tmpl) (s : GoString) (w : World) : Option GoError × World :=
  osWrite env (s ++ [newline]) w

/-- Writing chunks in order, stopping at the first failed write. -/
def writeAll (env : Env Meta Tmpl) : List GoString → World → Option GoError × World
  | [], w => (none, w)
  | c :: cs, w =>
    match osWrite env c w with
    | (some e, w1) => (some e, w1)
    | (none, w1) => writeAll env cs w1

/-- Modelled from the spec: the call `bkt.Get(ctx, name)` of the storage accessor, which
opens a read stream for the object or fails.  The call is recorded in the trace; on
success a fresh stream handle is open. -/
def bktGet (env : Env Meta Tmpl) (ctx : Ctx) (name : GoString) (w : World) :
    Except GoError (Nat × GoString) × World :=
  let w1 := { w with calls := w.calls ++ [Call.get ctx name] }
  match env.get name with
  | .error e => (.error e, w1)
  | .ok body =>
    (.ok (w1.nextStream, body),
      { w1 with openStreams := w1.nextStream :: w1.openStreams,
                nextStream := w1.nextStream + 1 })

/-- The call `rc.Close()`. -/
def rcClose (rc : Nat) (w : World) : World :=
  { w with openStreams := w.openStreams.erase rc }

/-- The call `enc.Encode(&m)`: marshal, then one write; either may fail. -/
def encEncode (env : Env Meta Tmpl) (m : Meta) (w : World) : Result × World :=
  match env.encode m with
  | .error e => (.err e, w)
  | .ok txt =>
    match osWrite env txt w with
    | (some e, w1) => (.err e, w1)
    | (none, w1) => (.nil, w1)

/-- The call `tmpl.Execute(os.Stdout, &m)`: the chunks are written in order; a failed
write or a failed expansion is the error returned. -/
def tmplExecute (env : Env Meta Tmpl) (t : Tmpl) (m : Meta) (w : World) :
    Option GoError × World :=
  match writeAll env (env.execute t m).1 w with
  | (some e, w1) => (some e, w1)
  | (none, w1) => ((env.execute t m).2, w1)

/-! ## The three per-entry callbacks of `runBucketList` -/

/-- The callback of `case ""`. -/
def printBlockName (env : Env Meta Tmpl) (name : GoString) (w : World) : Result × World :=
  match sliceTo name ((name.length : Int) - 1) with
  | none => (.panic, w)
  | some s => (.nil, (fprintln env s w).2)

/-- The callback of `case "json"`.  The deferred `rc.Close()` runs after the rest of
the body, on each of its return paths. -/
def printBlockJSON (env : Env Meta Tmpl) (ctx : Ctx) (name : GoString) (w : World) :
    Result × World :=
  match bktGet env ctx (env.join name (ascii "meta.json")) w with
  | (.error e, w1) => (.err (.wrap e (ascii "get reader for meta.json")), w1)
  | (.ok (rc, body), w1) =>
    let out : Result × World :=
      match env.decode body with
      | .error e => (.err (.wrap e (ascii "deocde meta.json")), w1)
      | .ok m => encEncode env m w1
    (out.1, rcClose rc out.2)

/-- The callback of the `default` case, for the parsed template `t`. -/
def printBlockTemplate (env : Env Meta Tmpl) (ctx : Ctx) (t : Tmpl) (name : GoString)
    (w : World) : Result × World :=
  match bktGet env ctx (env.join name (ascii "meta.json")) w with
  | (.error e, w1) => (.err (.wrap e (ascii "get reader for meta.json")), w1)
  | (.ok (rc, body), w1) =>
    let out : Result × World :=
      match env.decode body with
      | .error e => (.err (.wrap e (ascii "deocde meta.json")), w1)
      | .ok m =>
        match tmplExecute env t m w1 with
        | (some e, w2) => (.err (.wrap e (ascii "execute template")), w2)
        | (none, w2) => (.nil, (fprintln env [] w2).2)
    (out.1, rcClose rc out.2)

/-- The three arms of `switch format`. -/
inductive Renderer (Tmpl : Type) where
  | nameOnly
  | json
  | template (t : Tmpl)
  deriving DecidableEq, Repr

/-- The `switch format` statement: which arm is taken, or the error of the `default`
arm when the template does not parse. -/
def selectRenderer (env : Env Meta Tmpl) (format : GoString) :
    Except GoError (Renderer Tmpl) :=
  if format = [] then .ok .nameOnly
  else if format = ascii "json" then .ok .json
  else
    match env.parse format with
    | .error e => .error (.wrap e (ascii "invalid template"))
    | .ok t => .ok (.template t)

/-- The value of `printBlock` after the `switch`. -/
def printBlock (env : Env Meta Tmpl) (ctx : Ctx) :
    Renderer Tmpl → GoString → World → Result × World
  | .nameOnly => printBlockName env
  | .json => printBlockJSON env ctx
  | .template t => printBlockTemplate env ctx t

/-! ## The enumeration -/

/-- Modelled from the spec: the loop of `objstore.Bucket.Iter` (the bucket
implementation of `pkg/objstore` lies outside `cmd/thanos/bucket.go`).  By the contract
of the bucket walker the callback is invoked once per enumerated entry, in order; a
callback failure stops the enumeration at once and is returned with the context of the
enumeration added; an elapsed deadline is reported as a deadline-exceeded failure; no
output is rolled back.  A panic of the callback passes through.  `k` counts the looks
at the context. -/
def iterLoop (env : Env Meta Tmpl) (f : GoString → World → Result × World)
    (listEnd : Option GoError) : List GoString → Nat → World → Result × World
  | entries, k, w =>
    if env.ctxDone k then (.err DeadlineExceeded, w)
    else
      match entries with
      | [] =>
        match listEnd with
        | none => (.nil, w)
        | some e => (.err e, w)
      | e :: rest =>
        match f e w with
        | (.nil, w1) => iterLoop env f listEnd rest (k + 1) w1
        | (.err x, w1) => (.err (env.iterWrap x), w1)
        | (.panic, w1) => (.panic, w1)

/-- Modelled from the spec: the call `bkt.Iter(ctx, dir, f)` of the storage accessor,
one level under `dir`. -/
def bktIter (env : Env Meta Tmpl) (ctx : Ctx) (dir : GoString)
    (f : GoString → World → Result × World) (w : World) : Result × World :=
  iterLoop env f (env.list dir).2 (env.list dir).1 0
    { w with calls := w.calls ++ [Call.iter ctx dir] }

/-- The function `runBucketList(logger, gcsBucket, format)`.  The environment describes
the bucket named `gcsBucket`; the logger is not used by the function.  Building the
bucket handle and the deferred `cancel()` leave no mark on the world. -/
def runBucketList (env : Env Meta Tmpl) (_gcsBucket format : GoString) (w : World) :
    Result × World :=
  match env.newClient with
  | some e => (.err (.wrap e (ascii "create GCS client")), w)
  | none =>
    let ctx : Ctx := ⟨5 * minute⟩
    match selectRenderer env format with
    | .error e => (.err e, w)
    | .ok r => bktIter env ctx [] (printBlock env ctx r) w

/-- The final world when the callback is run on each entry in turn. -/
def runAll (f : GoString → World → Result × World) : List GoString → World → World
  | [], w => w
  | e :: rest, w => runAll f rest (f e w).2

/-- No callback fails when the entries are processed in turn from `w`. -/
def allSucceed (f : GoString → World → Result × World) : List GoString → World → Prop
  | [], _ => True
  | e :: rest, w => (f e w).1 = Result.nil ∧ allSucceed f rest (f e w).2

/-- The writes that make up the rendering of one entry, per renderer: the name without
its last byte and a newline; the encoded document; the chunks of the expanded template
and a newline.  (Empty when the document cannot be obtained or encoded.) -/
def rendered (env : Env Meta Tmpl) : Renderer Tmpl → GoString → List GoString
  | .nameOnly, name => [name.dropLast ++ [newline]]
  | .json, name =>
    match env.get (env.join name (ascii "meta.json")) with
    | .error _ => []
    | .ok body =>
      match env.decode body with
      | .error _ => []
      | .ok m =>
        match env.encode m with
        | .error _ => []
        | .ok txt => [txt]
  | .template t, name =>
    match env.get (env.join name (ascii "meta.json")) with
    | .error _ => []
    | .ok body =>
      match env.decode body with
      | .error _ => []
      | .ok m => (env.execute t m).1 ++ [[newline]]

/-- How the enumeration ends once the entries are exhausted, at look `k`. -/
def iterEnd (env : Env Meta Tmpl) (listEnd : Option GoError) (k : Nat) : Result :=
  if env.ctxDone k then .err DeadlineExceeded
  else
    match listEnd with
    | none => .nil
    | some e => .err e

/-- The entries the enumeration yields to the callback as long as no callback stops it:
the entries of the listing that are reached before the context is done (`k` is the
number of the look at the context before the first of them). -/
def yielded (env : Env Meta Tmpl) : List GoString → Nat → List GoString
  | [], _ => []
  | e :: rest, k => if env.ctxDone k then [] else e :: yielded env rest (k + 1)

/-! ## A concrete bucket -/

/-- The template text `{{.ULID}}`. -/
def tmplULID : GoString := ascii "\x7b\x7b.ULID\x7d\x7d"

/-- The template text `{{.Nope}}`, naming a field the document does not have. -/
def tmplNope : GoString := ascii "\x7b\x7b.Nope\x7d\x7d"

/-- The text `{{`, an unclosed action. -/
def tmplUnclosed : GoString := ascii "\x7b\x7b"

/-- The content of a well-formed metadata object. -/
def metaABC : GoString := ascii "\x7b\"ulid\":\"01ABC\"\x7d"

/-- The content of a truncated metadata object. -/
def metaTruncated : GoString := ascii "\x7b\"ulid\":"


/-- A sample metadata document. -/
structure SampleMeta where
  ulid : GoString
  minTime : Int
  maxTime : Int
  deriving DecidableEq, Repr

/-- The world before the program runs. -/
def World.initial : World :=
  { stdout := [], writes := [], calls := [], openStreams := [], nextStream := 0 }

/-- A sample environment: a bucket with the entries `01ABC/` and `01DEF/`; the
metadata object of the first decodes, that of the second is truncated.  Templates are
kept as their text: `{{` does not parse, `{{.ULID}}` prints the identifier and
`{{.Nope}}` fails during expansion.  Joining keeps one separator between the elements. -/
def sampleEnv : Env SampleMeta GoString where
  newClient := none
  join := fun a b => if a.getLast? = some sep then a ++ b else a ++ sep :: b
  list := fun _ => ([ascii "01ABC/", ascii "01DEF/"], none)
  ctxDone := fun _ => false
  iterWrap := fun e => e
  get := fun name =>
    if name = ascii "01ABC/meta.json" then .ok (metaABC)
    else if name = ascii "01DEF/meta.json" then .ok (metaTruncated)
    else .error (.base (ascii "storage: object doesn't exist"))
  decode := fun body =>
    if body = metaABC then .ok ⟨ascii "01ABC", 0, 100⟩
    else .error (.base (ascii "unexpected EOF"))
  encode := fun m => .ok (ascii "\x7b\n\t\"ulid\": \"" ++ m.ulid ++ ascii "\"\n\x7d\n")
  parse := fun f =>
    if f = tmplUnclosed then .error (.base (ascii "template: :1: unexpected unclosed action"))
    else .ok f
  execute := fun t m =>
    if t = tmplULID then ([m.ulid], none)
    else if t = tmplNope then
      ([], some (.base (ascii "template: :1:2: can't evaluate field Nope")))
    else ([t], none)
  writeErr := fun _ => none

/-- The sample environment with a standard output that refuses every write. -/
def closedStdoutEnv : Env SampleMeta GoString :=
  { sampleEnv with writeErr := fun _ => some (.base (ascii "write /dev/stdout: broken pipe")) }

/-- The sample environment with a context that is done from the start. -/
def expiredEnv : Env SampleMeta GoString :=
  { sampleEnv with ctxDone := fun _ => true }

/-- The sample environment with a third entry, `01GHI/`, listed after the other two. -/
def threeEntryEnv : Env SampleMeta GoString :=
  { sampleEnv with list := fun _ => ([ascii "01ABC/", ascii "01DEF/", ascii "01GHI/"], none) }

/-! ## Basic facts about the collaborators -/

theorem ascii_json_ne_nil : ascii "json" ≠ ([] : GoString) := by decide

theorem sliceTo_pred_of_ne_nil (s : GoString) (h : s ≠ []) :
    sliceTo s ((s.length : Int) - 1) = some s.dropLast := by
  have hpos : 0 < s.length := List.length_pos.mpr h
  have h1 : (0 : Int) ≤ (s.length : Int) - 1 ∧ (s.length : Int) - 1 ≤ (s.length : Int) := by
    omega
  have h2 : ((s.length : Int) - 1).toNat = s.length - 1 := by omega
  simp only [sliceTo, h1, and_self, if_true, h2, List.dropLast_eq_take]

theorem sliceTo_pred_nil : sliceTo ([] : GoString) ((([] : GoString).length : Int) - 1) = none := by
  decide

theorem osWrite_writes (env : Env Meta Tmpl) (p : GoString) (w : World) :
    (osWrite env p w).2.writes = w.writes ++ [p] := by
  unfold osWrite; cases env.writeErr w.writes.length <;> rfl

theorem osWrite_calls (env : Env Meta Tmpl) (p : GoString) (w : World) :
    (osWrite env p w).2.calls = w.calls := by
  unfold osWrite; cases env.writeErr w.writes.length <;> rfl

theorem osWrite_openStreams (env : Env Meta Tmpl) (p : GoString) (w : World) :
    (osWrite env p w).2.openStreams = w.openStreams := by
  unfold osWrite; cases env.writeErr w.writes.length <;> rfl

theorem osWrite_nextStream (env : Env Meta Tmpl) (p : GoString) (w : World) :
    (osWrite env p w).2.nextStream = w.nextStream := by
  unfold osWrite; cases env.writeErr w.writes.length <;> rfl

theorem osWrite_stdout_of_accepted (env : Env Meta Tmpl) (p : GoString) (w : World)
    (h : env.writeErr w.writes.length = none) :
    (osWrite env p w).2.stdout = w.stdout ++ p := by
  unfold osWrite; rw [h]

theorem osWrite_stdout_of_refused (env : Env Meta Tmpl) (p : GoString) (w : World)
    (e : GoError) (h : env.writeErr w.writes.length = some e) :
    (osWrite env p w).1 = some e ∧ (osWrite env p w).2.stdout = w.stdout := by
  unfold osWrite; rw [h]; exact ⟨rfl, rfl⟩

theorem printBlockName_of_ne_nil (env : Env Meta Tmpl) (name : GoString) (w : World)
    (h : name ≠ []) :
    printBlockName env name w = (Result.nil, (fprintln env name.dropLast w).2) := by
  unfold printBlockName
  rw [sliceTo_pred_of_ne_nil name h]

/-! ## Renderer selection -/

/-- C1: the format string selects the callback by a closed three-way dispatch made
once, before the enumeration: the empty string selects Name-Only, the exact string
`json` selects Canonical-JSON, and every other string goes to the template arm (never
to Name-Only or Canonical-JSON), where it is parsed as a template; the renderer
selected is the callback handed to the enumeration. -/
theorem C1_format_dispatch (env : Env Meta Tmpl) (format : GoString) :
    (format = [] → selectRenderer env format = .ok .nameOnly) ∧
    (format = ascii "json" → selectRenderer env format = .ok .json) ∧
    (format ≠ [] → format ≠ ascii "json" →
      selectRenderer env format ≠ .ok .nameOnly ∧
      selectRenderer env format ≠ .ok .json ∧
      (∀ t, env.parse format = .ok t → selectRenderer env format = .ok (.template t)) ∧
      (∀ e, env.parse format = .error e →
        selectRenderer env format = .error (.wrap e (ascii "invalid template")))) ∧
    (∀ (bucket : GoString) (w : World) (r : Renderer Tmpl), env.newClient = none →
      selectRenderer env format = .ok r →
      runBucketList env bucket format w
        = bktIter env ⟨5 * minute⟩ [] (printBlock env ⟨5 * minute⟩ r) w) := by
  refine ⟨?_, ?_, ?_, ?_⟩
  · intro h; simp [selectRenderer, h]
  · intro h; simp [selectRenderer, h, ascii_json_ne_nil]
  · intro h1 h2
    cases hp : env.parse format with
    | error e => simp [selectRenderer, h1, h2, hp]
    | ok t => simp [selectRenderer, h1, h2, hp]
  · intro bucket w r hc hr
    simp [runBucketList, hc, hr]

/-- C1, on the sample bucket: the empty format lists names, `json` re-encodes the
metadata, and `{{.ULID}}` is run as a template. -/
theorem C1_format_dispatch_witness :
    selectRenderer sampleEnv [] = .ok .nameOnly ∧
    selectRenderer sampleEnv (ascii "json") = .ok .json ∧
    selectRenderer sampleEnv (tmplULID) = .ok (.template (tmplULID)) ∧
    runBucketList sampleEnv (ascii "blocks") (tmplULID) World.initial
      = bktIter sampleEnv ⟨5 * minute⟩ []
          (printBlock sampleEnv ⟨5 * minute⟩ (.template (tmplULID))) World.initial :=
  ⟨(C1_format_dispatch sampleEnv []).1 rfl,
   (C1_format_dispatch sampleEnv (ascii "json")).2.1 rfl,
   ((C1_format_dispatch sampleEnv (tmplULID)).2.2.1 (by decide) (by decide)).2.2.1
      (tmplULID) rfl,
   (C1_format_dispatch sampleEnv (tmplULID)).2.2.2 (ascii "blocks") World.initial
      (.template (tmplULID)) rfl rfl⟩

/-! ## The Name-Only callback -/

/-- C2: for every entry name `E` that ends in the separator, the Name-Only callback
returns success and issues exactly one write: `E` without that one trailing byte,
followed by a newline (this is what reaches the stream when it accepts the write);
it makes no bucket access. -/
theorem C2_name_only_strips_separator (env : Env Meta Tmpl) (w : World) (E : GoString)
    (h : E.getLast? = some sep) :
    E = E.dropLast ++ [sep] ∧
    (printBlockName env E w).1 = Result.nil ∧
    (printBlockName env E w).2.writes = w.writes ++ [E.dropLast ++ [newline]] ∧
    (printBlockName env E w).2.calls = w.calls ∧
    (env.writeErr w.writes.length = none →
      (printBlockName env E w).2.stdout = w.stdout ++ (E.dropLast ++ [newline])) := by
  have hne : E ≠ [] := by
    intro h0; rw [h0] at h; simp at h
  have hlast : E.getLast hne = sep := by
    have := List.getLast?_eq_getLast E hne
    rw [this] at h
    exact Option.some.inj h
  have hsplit : E = E.dropLast ++ [sep] := by
    have := List.dropLast_append_getLast hne
    rw [hlast] at this
    exact this.symm
  rw [printBlockName_of_ne_nil env E w hne]
  refine ⟨hsplit, rfl, ?_, ?_, ?_⟩
  · exact osWrite_writes env _ w
  · exact osWrite_calls env _ w
  · intro hw
    exact osWrite_stdout_of_accepted env _ w hw

/-- C2, on the entry `01ABC/`: the line written is `01ABC`. -/
theorem C2_name_only_strips_separator_witness :
    (ascii "01ABC/").getLast? = some sep ∧
    (printBlockName sampleEnv (ascii "01ABC/") World.initial).1 = Result.nil ∧
    (printBlockName sampleEnv (ascii "01ABC/") World.initial).2.writes = [ascii "01ABC\n"] ∧
    (printBlockName sampleEnv (ascii "01ABC/") World.initial).2.stdout = ascii "01ABC\n" :=
  have h := C2_name_only_strips_separator sampleEnv World.initial (ascii "01ABC/") (by decide)
  ⟨by decide, h.2.1, h.2.2.1, h.2.2.2.2 rfl⟩

/-- C10: the slice `name[:len(name)-1]` of the Name-Only callback is in range exactly
when the name is not empty.  For every non-empty name the callback returns success and
writes the name without its last byte, plus a newline, whatever that byte is; for the
empty name the slice is out of range and the callback panics, leaving the world as it
was. -/
theorem C10_name_only_slice (env : Env Meta Tmpl) (w : World) (name : GoString) :
    ((sliceTo name ((name.length : Int) - 1)).isSome = true ↔ name ≠ []) ∧
    (name ≠ [] →
      (printBlockName env name w).1 = Result.nil ∧
      (printBlockName env name w).2.writes = w.writes ++ [name.dropLast ++ [newline]] ∧
      (env.writeErr w.writes.length = none →
        (printBlockName env name w).2.stdout = w.stdout ++ (name.dropLast ++ [newline]))) ∧
    (name = [] → printBlockName env name w = (Result.panic, w)) := by
  refine ⟨?_, ?_, ?_⟩
  · constructor
    · intro hs hnil
      rw [hnil, sliceTo_pred_nil] at hs
      exact absurd hs (by decide)
    · intro hne
      rw [sliceTo_pred_of_ne_nil name hne]; rfl
  · intro hne
    rw [printBlockName_of_ne_nil env name w hne]
    exact ⟨rfl, osWrite_writes env _ w, fun hw => osWrite_stdout_of_accepted env _ w hw⟩
  · intro hnil
    subst hnil
    unfold printBlockName
    rw [sliceTo_pred_nil]

/-- C10, on a name without a trailing separator and on the empty name: `01ABC` is
printed as `01AB`, and the empty name makes the callback panic. -/
theorem C10_name_only_slice_witness :
    ascii "01ABC" ≠ [] ∧
    (printBlockName sampleEnv (ascii "01ABC") World.initial).1 = Result.nil ∧
    (printBlockName sampleEnv (ascii "01ABC") World.initial).2.stdout = ascii "01AB\n" ∧
    printBlockName sampleEnv [] World.initial = (Result.panic, World.initial) :=
  have h := (C10_name_only_slice sampleEnv World.initial (ascii "01ABC")).2.1 (by decide)
  ⟨by decide, h.1, h.2.2 rfl,
   (C10_name_only_slice sampleEnv World.initial []).2.2 rfl⟩

/-! ## The enumeration loop -/

theorem iterLoop_nil (env : Env Meta Tmpl) (f : GoString → World → Result × World)
    (listEnd : Option GoError) (k : Nat) (w : World) :
    iterLoop env f listEnd [] k w = (iterEnd env listEnd k, w) := by
  unfold iterLoop iterEnd
  cases env.ctxDone k <;> cases listEnd <;> rfl

theorem iterLoop_done (env : Env Meta Tmpl) (f : GoString → World → Result × World)
    (listEnd : Option GoError) (entries : List GoString) (k : Nat) (w : World)
    (h : env.ctxDone k = true) :
    iterLoop env f listEnd entries k w = (Result.err DeadlineExceeded, w) := by
  unfold iterLoop
  simp [h]

theorem iterLoop_cons_nil (env : Env Meta Tmpl) (f : GoString → World → Result × World)
    (listEnd : Option GoError) (e : GoString) (rest : List GoString) (k : Nat) (w : World)
    (hd : env.ctxDone k = false) (hf : (f e w).1 = Result.nil) :
    iterLoop env f listEnd (e :: rest) k w = iterLoop env f listEnd rest (k + 1) (f e w).2 := by
  rw [iterLoop]
  rcases hfe : f e w with ⟨r, w1⟩
  rw [hfe] at hf
  simp only at hf
  subst hf
  simp [hd]

theorem iterLoop_cons_err (env : Env Meta Tmpl) (f : GoString → World → Result × World)
    (listEnd : Option GoError) (e : GoString) (rest : List GoString) (k : Nat) (w : World)
    (x : GoError) (hd : env.ctxDone k = false) (hf : (f e w).1 = Result.err x) :
    iterLoop env f listEnd (e :: rest) k w = (Result.err (env.iterWrap x), (f e w).2) := by
  rw [iterLoop]
  rcases hfe : f e w with ⟨r, w1⟩
  rw [hfe] at hf
  simp only at hf
  subst hf
  simp [hd]

/-- When the context is not done before any of the entries and no callback fails, the
loop runs the callback on each entry in turn and ends as the enumeration ends. -/
theorem iterLoop_of_allSucceed (env : Env Meta Tmpl) (f : GoString → World → Result × World)
    (listEnd : Option GoError) (entries : List GoString) :
    ∀ (k : Nat) (w : World), (∀ j, j < entries.length → env.ctxDone (k + j) = false) →
      allSucceed f entries w →
      iterLoop env f listEnd entries k w
        = (iterEnd env listEnd (k + entries.length), runAll f entries w) := by
  induction entries with
  | nil => intro k w _ _; simpa [runAll] using iterLoop_nil env f listEnd k w
  | cons e rest ih =>
    intro k w hd hs
    have h0 : env.ctxDone k = false := by simpa using hd 0 (by simp)
    rw [iterLoop_cons_nil env f listEnd e rest k w h0 hs.1]
    rw [ih (k + 1) (f e w).2 (fun j hj => by
      have := hd (j + 1) (by simpa using hj)
      rwa [show k + (j + 1) = k + 1 + j by omega] at this) hs.2]
    simp only [runAll, List.length_cons]
    rw [show k + 1 + rest.length = k + (rest.length + 1) by omega]

theorem allSucceed_printBlockName (env : Env Meta Tmpl) (entries : List GoString) :
    ∀ (w : World), (∀ e ∈ entries, e ≠ []) → allSucceed (printBlockName env) entries w := by
  induction entries with
  | nil => intro _ _; trivial
  | cons e rest ih =>
    intro w h
    refine ⟨?_, ih _ (fun x hx => h x (List.mem_cons_of_mem e hx))⟩
    rw [printBlockName_of_ne_nil env e w (h e (List.mem_cons_self e rest))]

/-! ## Template parse failure -/

/-- C5: for every format other than the empty string and `json` that does not parse
as a template, `runBucketList` returns a failure and leaves the world untouched: the
trace of bucket calls gains neither an `Iter` nor a `Get`, and nothing is written.
When the client was created, the failure is the parse error wrapped as
`invalid template`. -/
theorem C5_malformed_template_fails_fast (env : Env Meta Tmpl) (bucket format : GoString)
    (w : World) (e : GoError) (h1 : format ≠ []) (h2 : format ≠ ascii "json")
    (hp : env.parse format = .error e) :
    (runBucketList env bucket format w).1.isErr = true ∧
    (runBucketList env bucket format w).2 = w ∧
    (env.newClient = none →
      (runBucketList env bucket format w).1
        = Result.err (.wrap e (ascii "invalid template"))) := by
  have hs : selectRenderer env format = .error (.wrap e (ascii "invalid template")) := by
    simp [selectRenderer, h1, h2, hp]
  cases hc : env.newClient with
  | some c => simp [runBucketList, hc, Result.isErr]
  | none => simp [runBucketList, hc, hs, Result.isErr]

/-- C5, on the sample bucket with the unclosed action `{{` as format. -/
theorem C5_malformed_template_fails_fast_witness :
    tmplUnclosed ≠ [] ∧ tmplUnclosed ≠ ascii "json" ∧
    (runBucketList sampleEnv (ascii "blocks") (tmplUnclosed) World.initial).1.isErr = true ∧
    (runBucketList sampleEnv (ascii "blocks") (tmplUnclosed) World.initial).2 = World.initial :=
  have h := C5_malformed_template_fails_fast sampleEnv (ascii "blocks") (tmplUnclosed)
    World.initial (.base (ascii "template: :1: unexpected unclosed action"))
    (by decide) (by decide) rfl
  ⟨by decide, by decide, h.1, h.2.1⟩

/-! ## Write failures in Name-Only mode -/

/-- C8 as stated fails: on a standard output that refuses every write, the write of
the line for `01ABC/` fails, yet the Name-Only callback returns success; the walk over
the sample bucket goes on to `01DEF/` and reports success with nothing on the stream. -/
theorem C8_write_failure_goes_unreported :
    (fprintln closedStdoutEnv (ascii "01ABC") World.initial).1 ≠ none ∧
    (printBlockName closedStdoutEnv (ascii "01ABC/") World.initial).1 = Result.nil ∧
    (runBucketList closedStdoutEnv (ascii "blocks") [] World.initial).1 = Result.nil ∧
    (runBucketList closedStdoutEnv (ascii "blocks") [] World.initial).2.writes
      = [ascii "01ABC\n", ascii "01DEF\n"] ∧
    (runBucketList closedStdoutEnv (ascii "blocks") [] World.initial).2.stdout = [] := by
  decide

/-- C8, amended: the Name-Only callback discards the result of `fmt.Fprintln`.  For
every non-empty entry name it returns success whether or not the write failed (a
failed write leaves the stream as it was), and a walk over non-empty names whose
enumeration ends normally within the deadline reports success whatever the writes
did. -/
theorem C8_name_only_discards_write_result (env : Env Meta Tmpl) (w : World)
    (name : GoString) (h : name ≠ []) :
    (printBlockName env name w).1 = Result.nil ∧
    (∀ e, env.writeErr w.writes.length = some e →
      (fprintln env name.dropLast w).1 = some e ∧
      (printBlockName env name w).2.stdout = w.stdout) ∧
    (∀ bucket : GoString, env.newClient = none → (env.list []).2 = none →
      (∀ x ∈ (env.list []).1, x ≠ []) →
      (∀ j, j ≤ (env.list []).1.length → env.ctxDone j = false) →
      (runBucketList env bucket [] w).1 = Result.nil) := by
  rw [printBlockName_of_ne_nil env name w h]
  refine ⟨rfl, ?_, ?_⟩
  · intro e he
    exact osWrite_stdout_of_refused env _ w e he
  · intro bucket hc hl hne hd
    have hsel : selectRenderer env [] = (.ok .nameOnly : Except GoError (Renderer Tmpl)) := by
      simp [selectRenderer]
    simp only [runBucketList, hc, hsel, bktIter, printBlock]
    rw [iterLoop_of_allSucceed env (printBlockName env) _ _ 0 _
      (fun j hj => by simpa using hd j (Nat.le_of_lt hj))
      (allSucceed_printBlockName env _ _ hne)]
    simp [iterEnd, hl, hd _ (Nat.le_refl _)]

/-- C8 amended, on the closed standard output: the callback succeeds for `01ABC/`. -/
theorem C8_name_only_discards_write_result_witness :
    ascii "01ABC/" ≠ [] ∧
    (printBlockName closedStdoutEnv (ascii "01ABC/") World.initial).1 = Result.nil ∧
    (printBlockName closedStdoutEnv (ascii "01ABC/") World.initial).2.stdout = [] ∧
    (runBucketList closedStdoutEnv (ascii "blocks") [] World.initial).1 = Result.nil :=
  have h := C8_name_only_discards_write_result closedStdoutEnv World.initial
    (ascii "01ABC/") (by decide)
  ⟨by decide, h.1,
   (h.2.1 (.base (ascii "write /dev/stdout: broken pipe")) rfl).2,
   h.2.2 (ascii "blocks") rfl rfl (by decide) (fun _ _ => rfl)⟩

/-! ## The metadata callbacks -/

theorem writeAll_frame (env : Env Meta Tmpl) (chunks : List GoString) :
    ∀ w : World, (writeAll env chunks w).2.calls = w.calls ∧
      (writeAll env chunks w).2.openStreams = w.openStreams ∧
      (writeAll env chunks w).2.nextStream = w.nextStream := by
  induction chunks with
  | nil => intro w; exact ⟨rfl, rfl, rfl⟩
  | cons c cs ih =>
    intro w
    have hc := osWrite_calls env c w
    have ho := osWrite_openStreams env c w
    have hn := osWrite_nextStream env c w
    unfold writeAll
    rcases hw : osWrite env c w with ⟨r, w1⟩
    rw [hw] at hc ho hn
    simp only at hc ho hn
    cases r with
    | some e => exact ⟨hc, ho, hn⟩
    | none =>
      have := ih w1
      exact ⟨this.1.trans hc, this.2.1.trans ho, this.2.2.trans hn⟩

theorem encEncode_frame (env : Env Meta Tmpl) (m : Meta) (w : World) :
    (encEncode env m w).2.calls = w.calls ∧
    (encEncode env m w).2.openStreams = w.openStreams ∧
    (encEncode env m w).2.nextStream = w.nextStream := by
  unfold encEncode
  cases env.encode m with
  | error e => exact ⟨rfl, rfl, rfl⟩
  | ok txt =>
    have hc := osWrite_calls env txt w
    have ho := osWrite_openStreams env txt w
    have hn := osWrite_nextStream env txt w
    dsimp only
    rcases hw : osWrite env txt w with ⟨r, w1⟩
    rw [hw] at hc ho hn
    cases r <;> exact ⟨hc, ho, hn⟩

theorem tmplExecute_frame (env : Env Meta Tmpl) (t : Tmpl) (m : Meta) (w : World) :
    (tmplExecute env t m w).2.calls = w.calls ∧
    (tmplExecute env t m w).2.openStreams = w.openStreams ∧
    (tmplExecute env t m w).2.nextStream = w.nextStream := by
  have h := writeAll_frame env (env.execute t m).1 w
  unfold tmplExecute
  rcases hw : writeAll env (env.execute t m).1 w with ⟨r, w1⟩
  rw [hw] at h
  cases r <;> exact h

/-- The part of the Canonical-JSON callback between `defer rc.Close()` and the return:
it touches neither the trace of bucket calls nor the streams. -/
theorem jsonBody_frame (env : Env Meta Tmpl) (body : GoString) (w1 : World) :
    ∀ out : Result × World,
      out = (match env.decode body with
        | .error e => (Result.err (.wrap e (ascii "deocde meta.json")), w1)
        | .ok m => encEncode env m w1) →
      out.2.calls = w1.calls ∧ out.2.openStreams = w1.openStreams ∧
        out.2.nextStream = w1.nextStream := by
  intro out h
  subst h
  cases env.decode body with
  | error e => exact ⟨rfl, rfl, rfl⟩
  | ok m => exact encEncode_frame env m w1

/-- The same for the template callback. -/
theorem templateBody_frame (env : Env Meta Tmpl) (t : Tmpl) (body : GoString) (w1 : World) :
    ∀ out : Result × World,
      out = (match env.decode body with
        | .error e => (Result.err (.wrap e (ascii "deocde meta.json")), w1)
        | .ok m =>
          match tmplExecute env t m w1 with
          | (some e, w2) => (Result.err (.wrap e (ascii "execute template")), w2)
          | (none, w2) => (Result.nil, (fprintln env [] w2).2)) →
      out.2.calls = w1.calls ∧ out.2.openStreams = w1.openStreams ∧
        out.2.nextStream = w1.nextStream := by
  intro out h
  subst h
  cases env.decode body with
  | error e => exact ⟨rfl, rfl, rfl⟩
  | ok m =>
    have hx := tmplExecute_frame env t m w1
    dsimp only
    rcases hw : tmplExecute env t m w1 with ⟨r, w2⟩
    rw [hw] at hx
    cases r with
    | some e => exact hx
    | none =>
      simp only [fprintln]
      exact ⟨(osWrite_calls env _ w2).trans hx.1, (osWrite_openStreams env _ w2).trans hx.2.1,
        (osWrite_nextStream env _ w2).trans hx.2.2⟩

/-- What either metadata callback does to the trace and to the streams: one `Get` of
the metadata object is recorded, the open streams are as before, and a stream handle
is used up exactly when the `Get` succeeded. -/
theorem printBlockJSON_frame (env : Env Meta Tmpl) (ctx : Ctx) (name : GoString) (w : World) :
    (printBlockJSON env ctx name w).2.calls
      = w.calls ++ [Call.get ctx (env.join name (ascii "meta.json"))] ∧
    (printBlockJSON env ctx name w).2.openStreams = w.openStreams ∧
    (printBlockJSON env ctx name w).2.nextStream
      = (match env.get (env.join name (ascii "meta.json")) with
          | .ok _ => w.nextStream + 1
          | .error _ => w.nextStream) := by
  unfold printBlockJSON bktGet
  cases env.get (env.join name (ascii "meta.json")) with
  | error e => exact ⟨rfl, rfl, rfl⟩
  | ok body =>
    simp only
    have h := jsonBody_frame env body
      { stdout := w.stdout, writes := w.writes,
        calls := w.calls ++ [Call.get ctx (env.join name (ascii "meta.json"))],
        openStreams := w.nextStream :: w.openStreams, nextStream := w.nextStream + 1 } _ rfl
    refine ⟨h.1, ?_, h.2.2⟩
    simp only [rcClose, h.2.1, List.erase_cons_head]

theorem printBlockTemplate_frame (env : Env Meta Tmpl) (ctx : Ctx) (t : Tmpl)
    (name : GoString) (w : World) :
    (printBlockTemplate env ctx t name w).2.calls
      = w.calls ++ [Call.get ctx (env.join name (ascii "meta.json"))] ∧
    (printBlockTemplate env ctx t name w).2.openStreams = w.openStreams ∧
    (printBlockTemplate env ctx t name w).2.nextStream
      = (match env.get (env.join name (ascii "meta.json")) with
          | .ok _ => w.nextStream + 1
          | .error _ => w.nextStream) := by
  unfold printBlockTemplate bktGet
  cases env.get (env.join name (ascii "meta.json")) with
  | error e => exact ⟨rfl, rfl, rfl⟩
  | ok body =>
    simp only
    have h := templateBody_frame env t body
      { stdout := w.stdout, writes := w.writes,
        calls := w.calls ++ [Call.get ctx (env.join name (ascii "meta.json"))],
        openStreams := w.nextStream :: w.openStreams, nextStream := w.nextStream + 1 } _ rfl
    refine ⟨h.1, ?_, h.2.2⟩
    simp only [rcClose, h.2.1, List.erase_cons_head]

theorem printBlockJSON_get_error (env : Env Meta Tmpl) (ctx : Ctx) (name : GoString)
    (w : World) (e : GoError) (h : env.get (env.join name (ascii "meta.json")) = .error e) :
    (printBlockJSON env ctx name w).1
      = Result.err (.wrap e (ascii "get reader for meta.json")) ∧
    (printBlockJSON env ctx name w).2.stdout = w.stdout ∧
    (printBlockJSON env ctx name w).2.writes = w.writes := by
  unfold printBlockJSON bktGet
  rw [h]
  exact ⟨rfl, rfl, rfl⟩

theorem printBlockJSON_decode_error (env : Env Meta Tmpl) (ctx : Ctx) (name : GoString)
    (w : World) (body : GoString) (e : GoError)
    (h : env.get (env.join name (ascii "meta.json")) = .ok body)
    (hd : env.decode body = .error e) :
    (printBlockJSON env ctx name w).1 = Result.err (.wrap e (ascii "deocde meta.json")) ∧
    (printBlockJSON env ctx name w).2.stdout = w.stdout ∧
    (printBlockJSON env ctx name w).2.writes = w.writes := by
  unfold printBlockJSON bktGet
  rw [h]
  dsimp only
  rw [hd]
  exact ⟨rfl, rfl, rfl⟩

theorem printBlockTemplate_get_error (env : Env Meta Tmpl) (ctx : Ctx) (t : Tmpl)
    (name : GoString) (w : World) (e : GoError)
    (h : env.get (env.join name (ascii "meta.json")) = .error e) :
    (printBlockTemplate env ctx t name w).1
      = Result.err (.wrap e (ascii "get reader for meta.json")) ∧
    (printBlockTemplate env ctx t name w).2.stdout = w.stdout ∧
    (printBlockTemplate env ctx t name w).2.writes = w.writes := by
  unfold printBlockTemplate bktGet
  rw [h]
  exact ⟨rfl, rfl, rfl⟩

theorem printBlockTemplate_decode_error (env : Env Meta Tmpl) (ctx : Ctx) (t : Tmpl)
    (name : GoString) (w : World) (body : GoString) (e : GoError)
    (h : env.get (env.join name (ascii "meta.json")) = .ok body)
    (hd : env.decode body = .error e) :
    (printBlockTemplate env ctx t name w).1
      = Result.err (.wrap e (ascii "deocde meta.json")) ∧
    (printBlockTemplate env ctx t name w).2.stdout = w.stdout ∧
    (printBlockTemplate env ctx t name w).2.writes = w.writes := by
  unfold printBlockTemplate bktGet
  rw [h]
  dsimp only
  rw [hd]
  exact ⟨rfl, rfl, rfl⟩

/-! ## Stream release -/

/-- C6: whatever the fetch, the decoding and the rendering do, the Canonical-JSON and
the Template callbacks return with the open read streams exactly as they found them:
the stream opened for the metadata object (one is opened, and a handle used up,
exactly when the `Get` succeeds) has been closed by the time the callback returns. -/
theorem C6_stream_released (env : Env Meta Tmpl) (ctx : Ctx) (t : Tmpl) (name : GoString)
    (w : World) :
    (printBlockJSON env ctx name w).2.openStreams = w.openStreams ∧
    (printBlockTemplate env ctx t name w).2.openStreams = w.openStreams ∧
    (∀ body, env.get (env.join name (ascii "meta.json")) = .ok body →
      (bktGet env ctx (env.join name (ascii "meta.json")) w).2.openStreams
        = w.nextStream :: w.openStreams ∧
      (printBlockJSON env ctx name w).2.nextStream = w.nextStream + 1 ∧
      (printBlockTemplate env ctx t name w).2.nextStream = w.nextStream + 1) := by
  have hj := printBlockJSON_frame env ctx name w
  have ht := printBlockTemplate_frame env ctx t name w
  refine ⟨hj.2.1, ht.2.1, ?_⟩
  intro body hb
  rw [hb] at hj ht
  refine ⟨?_, hj.2.2, ht.2.2⟩
  unfold bktGet
  rw [hb]

/-- C6, on the sample bucket: the stream of `01DEF/meta.json`, whose content does not
decode, is opened and is closed again when the callback returns. -/
theorem C6_stream_released_witness :
    (bktGet sampleEnv ⟨5 * minute⟩ (ascii "01DEF/meta.json") World.initial).2.openStreams = [0] ∧
    (printBlockJSON sampleEnv ⟨5 * minute⟩ (ascii "01DEF/") World.initial).2.openStreams = [] ∧
    (printBlockJSON sampleEnv ⟨5 * minute⟩ (ascii "01DEF/") World.initial).2.nextStream = 1 ∧
    (printBlockTemplate sampleEnv ⟨5 * minute⟩ (tmplNope) (ascii "01ABC/")
      World.initial).2.openStreams = [] :=
  have h := C6_stream_released sampleEnv ⟨5 * minute⟩ (tmplNope) (ascii "01DEF/")
    World.initial
  have h2 := C6_stream_released sampleEnv ⟨5 * minute⟩ (tmplNope) (ascii "01ABC/")
    World.initial
  ⟨(h.2.2 (metaTruncated) rfl).1, h.1, (h.2.2 (metaTruncated) rfl).2.1, h2.2.1⟩

/-! ## Error annotation -/

/-- C7 as stated fails: on the sample bucket the object `01XYZ/meta.json` is missing
and the content of `01DEF/meta.json` does not decode; the errors the Canonical-JSON
callback returns read `get reader for meta.json: ...` and `deocde meta.json: ...`, and
neither their text nor their annotations hold the metadata path of the entry. -/
theorem C7_error_lacks_metadata_path :
    (∃ e, (printBlockJSON sampleEnv ⟨5 * minute⟩ (ascii "01XYZ/") World.initial).1
        = Result.err e ∧
      sampleEnv.join (ascii "01XYZ/") (ascii "meta.json") = ascii "01XYZ/meta.json" ∧
      e.text = ascii "get reader for meta.json: storage: object doesn't exist" ∧
      ¬ (ascii "01XYZ/meta.json" <:+: e.text) ∧
      ascii "01XYZ/meta.json" ∉ e.annotations) ∧
    (∃ e, (printBlockJSON sampleEnv ⟨5 * minute⟩ (ascii "01DEF/") World.initial).1
        = Result.err e ∧
      e.text = ascii "deocde meta.json: unexpected EOF" ∧
      ¬ (ascii "01DEF/meta.json" <:+: e.text) ∧
      ascii "01DEF/meta.json" ∉ e.annotations) :=
  ⟨⟨_, rfl, by decide, by decide, by decide, by decide⟩,
   ⟨_, rfl, by decide, by decide, by decide⟩⟩

/-- C7, amended: for every entry name `E` the fetch is issued for the join of `E` with
`meta.json`; when opening that object fails with `e`, both metadata callbacks return
`e` wrapped with the fixed message `get reader for meta.json`, and when decoding its
content fails with `e`, they return `e` wrapped with the fixed message
`deocde meta.json`.  The annotation names the operation; the callback does not add the
path. -/
theorem C7_errors_name_the_operation (env : Env Meta Tmpl) (ctx : Ctx) (t : Tmpl)
    (E : GoString) (w : World) :
    (printBlockJSON env ctx E w).2.calls
      = w.calls ++ [Call.get ctx (env.join E (ascii "meta.json"))] ∧
    (printBlockTemplate env ctx t E w).2.calls
      = w.calls ++ [Call.get ctx (env.join E (ascii "meta.json"))] ∧
    (∀ e, env.get (env.join E (ascii "meta.json")) = .error e →
      (printBlockJSON env ctx E w).1
        = Result.err (.wrap e (ascii "get reader for meta.json")) ∧
      (printBlockTemplate env ctx t E w).1
        = Result.err (.wrap e (ascii "get reader for meta.json"))) ∧
    (∀ body e, env.get (env.join E (ascii "meta.json")) = .ok body →
      env.decode body = .error e →
      (printBlockJSON env ctx E w).1 = Result.err (.wrap e (ascii "deocde meta.json")) ∧
      (printBlockTemplate env ctx t E w).1
        = Result.err (.wrap e (ascii "deocde meta.json"))) :=
  ⟨(printBlockJSON_frame env ctx E w).1, (printBlockTemplate_frame env ctx t E w).1,
   fun e h => ⟨(printBlockJSON_get_error env ctx E w e h).1,
     (printBlockTemplate_get_error env ctx t E w e h).1⟩,
   fun body e h hd => ⟨(printBlockJSON_decode_error env ctx E w body e h hd).1,
     (printBlockTemplate_decode_error env ctx t E w body e h hd).1⟩⟩

/-- C7 amended, on the sample bucket: the errors for the missing `01XYZ/meta.json`
and the truncated `01DEF/meta.json`. -/
theorem C7_errors_name_the_operation_witness :
    (printBlockJSON sampleEnv ⟨5 * minute⟩ (ascii "01XYZ/") World.initial).1
      = Result.err (.wrap (.base (ascii "storage: object doesn't exist"))
          (ascii "get reader for meta.json")) ∧
    (printBlockTemplate sampleEnv ⟨5 * minute⟩ (tmplULID) (ascii "01DEF/")
      World.initial).1
      = Result.err (.wrap (.base (ascii "unexpected EOF")) (ascii "deocde meta.json")) :=
  have h1 := C7_errors_name_the_operation sampleEnv ⟨5 * minute⟩ (tmplULID)
    (ascii "01XYZ/") World.initial
  have h2 := C7_errors_name_the_operation sampleEnv ⟨5 * minute⟩ (tmplULID)
    (ascii "01DEF/") World.initial
  ⟨(h1.2.2.1 _ rfl).1, (h2.2.2.2 (metaTruncated) _ rfl rfl).2⟩

/-! ## What a successful callback writes -/

theorem osWrite_none (env : Env Meta Tmpl) (p : GoString) (w w1 : World)
    (h : osWrite env p w = (none, w1)) :
    w1.writes = w.writes ++ [p] ∧ w1.stdout = w.stdout ++ p := by
  unfold osWrite at h
  cases hw : env.writeErr w.writes.length with
  | none =>
    rw [hw] at h
    have := (Prod.mk.inj h).2
    subst this
    exact ⟨rfl, rfl⟩
  | some e =>
    rw [hw] at h
    exact absurd (Prod.mk.inj h).1 (by simp)

theorem writeAll_none (env : Env Meta Tmpl) (chunks : List GoString) :
    ∀ w w1 : World, writeAll env chunks w = (none, w1) →
      w1.writes = w.writes ++ chunks ∧ w1.stdout = w.stdout ++ chunks.flatten := by
  induction chunks with
  | nil =>
    intro w w1 h
    have := (Prod.mk.inj h).2
    subst this
    simp
  | cons c cs ih =>
    intro w w1 h
    unfold writeAll at h
    rcases hw : osWrite env c w with ⟨r, w2⟩
    rw [hw] at h
    cases r with
    | some e => exact absurd (Prod.mk.inj h).1 (by simp)
    | none =>
      have h1 := osWrite_none env c w w2 hw
      have h2 := ih w2 w1 h
      rw [h2.1, h2.2, h1.1, h1.2]
      simp

theorem fprintln_writes_stdout (env : Env Meta Tmpl) (s : GoString) (w : World) :
    (fprintln env s w).2.writes = w.writes ++ [s ++ [newline]] ∧
    ((∀ k, env.writeErr k = none) →
      (fprintln env s w).2.stdout = w.stdout ++ (s ++ [newline])) :=
  ⟨osWrite_writes env _ w, fun h => osWrite_stdout_of_accepted env _ w (h _)⟩

theorem printBlockName_nil (env : Env Meta Tmpl) (name : GoString) (w : World)
    (h : (printBlockName env name w).1 = Result.nil) :
    (printBlockName env name w).2.writes = w.writes ++ [name.dropLast ++ [newline]] ∧
    ((∀ k, env.writeErr k = none) →
      (printBlockName env name w).2.stdout = w.stdout ++ (name.dropLast ++ [newline])) := by
  have hne : name ≠ [] := by
    intro h0
    subst h0
    unfold printBlockName at h
    rw [sliceTo_pred_nil] at h
    simp at h
  rw [printBlockName_of_ne_nil env name w hne]
  exact fprintln_writes_stdout env _ w

theorem encEncode_nil (env : Env Meta Tmpl) (m : Meta) (w : World)
    (h : (encEncode env m w).1 = Result.nil) :
    ∃ txt, env.encode m = .ok txt ∧ (encEncode env m w).2.writes = w.writes ++ [txt] ∧
      (encEncode env m w).2.stdout = w.stdout ++ txt := by
  unfold encEncode at h ⊢
  cases he : env.encode m with
  | error e => rw [he] at h; simp at h
  | ok txt =>
    rw [he] at h
    dsimp only at h ⊢
    rcases hw : osWrite env txt w with ⟨r, w1⟩
    rw [hw] at h
    cases r with
    | some e => simp at h
    | none =>
      have := osWrite_none env txt w w1 hw
      exact ⟨txt, rfl, this.1, this.2⟩

theorem tmplExecute_none (env : Env Meta Tmpl) (t : Tmpl) (m : Meta) (w : World)
    (h : (tmplExecute env t m w).1 = none) :
    (tmplExecute env t m w).2.writes = w.writes ++ (env.execute t m).1 ∧
    (tmplExecute env t m w).2.stdout = w.stdout ++ (env.execute t m).1.flatten := by
  unfold tmplExecute at h ⊢
  rcases hw : writeAll env (env.execute t m).1 w with ⟨r, w1⟩
  rw [hw] at h
  cases r with
  | some e => simp at h
  | none => exact writeAll_none env _ w w1 hw

theorem printBlockJSON_nil (env : Env Meta Tmpl) (ctx : Ctx) (name : GoString) (w : World)
    (h : (printBlockJSON env ctx name w).1 = Result.nil) :
    (printBlockJSON env ctx name w).2.writes = w.writes ++ rendered env .json name ∧
    (printBlockJSON env ctx name w).2.stdout
      = w.stdout ++ (rendered env .json name).flatten := by
  unfold printBlockJSON bktGet at h ⊢
  cases hg : env.get (env.join name (ascii "meta.json")) with
  | error e => rw [hg] at h; simp at h
  | ok body =>
    rw [hg] at h
    dsimp only at h ⊢
    cases hd : env.decode body with
    | error e => rw [hd] at h; simp at h
    | ok m =>
      rw [hd] at h
      dsimp only at h ⊢
      obtain ⟨txt, he, hw, hs⟩ := encEncode_nil env m _ h
      have hr : rendered env .json name = [txt] := by simp [rendered, hg, hd, he]
      rw [hr]
      simp only [rcClose, hw, hs, List.flatten_cons, List.flatten_nil, List.append_nil,
        and_self]

theorem printBlockTemplate_nil (env : Env Meta Tmpl) (ctx : Ctx) (t : Tmpl) (name : GoString)
    (w : World) (h : (printBlockTemplate env ctx t name w).1 = Result.nil) :
    (printBlockTemplate env ctx t name w).2.writes
      = w.writes ++ rendered env (.template t) name ∧
    ((∀ k, env.writeErr k = none) →
      (printBlockTemplate env ctx t name w).2.stdout
        = w.stdout ++ (rendered env (.template t) name).flatten) := by
  unfold printBlockTemplate bktGet at h ⊢
  cases hg : env.get (env.join name (ascii "meta.json")) with
  | error e => rw [hg] at h; simp at h
  | ok body =>
    rw [hg] at h
    dsimp only at h ⊢
    cases hd : env.decode body with
    | error e => rw [hd] at h; simp at h
    | ok m =>
      rw [hd] at h
      dsimp only at h ⊢
      rcases hx : tmplExecute env t m _ with ⟨r, w2⟩
      rw [hx] at h
      cases r with
      | some e => simp at h
      | none =>
        have hall := tmplExecute_none env t m _ (by rw [hx])
        rw [hx] at hall
        have hf := fprintln_writes_stdout env [] w2
        have hr : rendered env (.template t) name = (env.execute t m).1 ++ [[newline]] := by
          simp [rendered, hg, hd]
        rw [hr]
        dsimp only at hall ⊢
        simp only [rcClose, hf.1, hall.1, List.nil_append, List.append_assoc, true_and]
        intro hacc
        rw [hf.2 hacc, hall.2]
        simp

/-- A callback that returns success has written the rendering of its entry, and that
is what reaches the stream when no write is refused. -/
theorem printBlock_nil (env : Env Meta Tmpl) (ctx : Ctx) (r : Renderer Tmpl)
    (name : GoString) (w : World) (h : (printBlock env ctx r name w).1 = Result.nil) :
    (printBlock env ctx r name w).2.writes = w.writes ++ rendered env r name ∧
    ((∀ k, env.writeErr k = none) →
      (printBlock env ctx r name w).2.stdout = w.stdout ++ (rendered env r name).flatten) := by
  cases r with
  | nameOnly =>
    have := printBlockName_nil env name w h
    exact ⟨this.1, fun hk => by simpa [rendered] using this.2 hk⟩
  | json =>
    have := printBlockJSON_nil env ctx name w h
    exact ⟨this.1, fun _ => this.2⟩
  | template t => exact printBlockTemplate_nil env ctx t name w h

theorem runAll_writes (env : Env Meta Tmpl) (ctx : Ctx) (r : Renderer Tmpl)
    (entries : List GoString) :
    ∀ w : World, allSucceed (printBlock env ctx r) entries w →
      (runAll (printBlock env ctx r) entries w).writes
        = w.writes ++ (entries.map (rendered env r)).flatten ∧
      ((∀ k, env.writeErr k = none) →
        (runAll (printBlock env ctx r) entries w).stdout
          = w.stdout ++ ((entries.map (rendered env r)).flatten).flatten) := by
  induction entries with
  | nil => intro w _; simp [runAll]
  | cons e rest ih =>
    intro w hs
    have h1 := printBlock_nil env ctx r e w hs.1
    have h2 := ih _ hs.2
    simp only [runAll, List.map_cons, List.flatten_cons, List.flatten_append]
    refine ⟨by rw [h2.1, h1.1, List.append_assoc], fun hk => ?_⟩
    rw [h2.2 hk, h1.2 hk, List.append_assoc]

/-! ## Enumeration order -/

theorem yielded_cons_inv (env : Env Meta Tmpl) (entries : List GoString) (k : Nat)
    (a : GoString) (l : List GoString) (h : yielded env entries k = a :: l) :
    ∃ rest, entries = a :: rest ∧ env.ctxDone k = false ∧ yielded env rest (k + 1) = l := by
  cases entries with
  | nil => simp [yielded] at h
  | cons e rest =>
    cases hd : env.ctxDone k with
    | true => simp [yielded, hd] at h
    | false =>
      simp only [yielded, hd, Bool.false_eq_true, if_false, List.cons.injEq] at h
      exact ⟨rest, by rw [h.1], rfl, h.2⟩

theorem yielded_of_not_done (env : Env Meta Tmpl) (entries : List GoString) :
    ∀ k, (∀ j, j < entries.length → env.ctxDone (k + j) = false) →
      yielded env entries k = entries := by
  induction entries with
  | nil => intro _ _; rfl
  | cons e rest ih =>
    intro k hd
    have h0 : env.ctxDone k = false := by simpa using hd 0 (by simp)
    simp only [yielded, h0, Bool.false_eq_true, if_false, List.cons.injEq, true_and]
    exact ih (k + 1) (fun j hj => by
      have := hd (j + 1) (by simpa using hj)
      rwa [show k + (j + 1) = k + 1 + j by omega] at this)

/-- When no callback fails on the yielded entries, the loop leaves the world that
running the callback on each of them in turn leaves. -/
theorem iterLoop_yielded (env : Env Meta Tmpl) (f : GoString → World → Result × World)
    (listEnd : Option GoError) (entries : List GoString) :
    ∀ (k : Nat) (w : World), allSucceed f (yielded env entries k) w →
      (iterLoop env f listEnd entries k w).2 = runAll f (yielded env entries k) w := by
  induction entries with
  | nil => intro k w _; rw [iterLoop_nil]; rfl
  | cons e rest ih =>
    intro k w hs
    cases hd : env.ctxDone k with
    | true =>
      rw [iterLoop_done env f listEnd (e :: rest) k w hd]
      simp [yielded, hd, runAll]
    | false =>
      have hy : yielded env (e :: rest) k = e :: yielded env rest (k + 1) := by
        simp [yielded, hd]
      rw [hy] at hs ⊢
      rw [iterLoop_cons_nil env f listEnd e rest k w hd hs.1]
      exact ih (k + 1) (f e w).2 hs.2

/-- C4: for the sequence of entries the iteration of the storage accessor yields, if
no callback fails on them, the walk runs the callback on each yielded entry once, in
the order yielded: the writes it adds to the output are the renderings of the yielded
entries in that order and nothing else, and they are what reaches the stream when no
write is refused.  (The yielded entries are the whole listing when the context is not
done before any of its entries.) -/
theorem C4_enumeration_order (env : Env Meta Tmpl) (ctx : Ctx) (r : Renderer Tmpl)
    (dir : GoString) (w : World)
    (hs : allSucceed (printBlock env ctx r) (yielded env (env.list dir).1 0)
      { w with calls := w.calls ++ [Call.iter ctx dir] }) :
    (bktIter env ctx dir (printBlock env ctx r) w).2
      = runAll (printBlock env ctx r) (yielded env (env.list dir).1 0)
          { w with calls := w.calls ++ [Call.iter ctx dir] } ∧
    (bktIter env ctx dir (printBlock env ctx r) w).2.writes
      = w.writes ++ ((yielded env (env.list dir).1 0).map (rendered env r)).flatten ∧
    ((∀ k, env.writeErr k = none) →
      (bktIter env ctx dir (printBlock env ctx r) w).2.stdout
        = w.stdout
          ++ (((yielded env (env.list dir).1 0).map (rendered env r)).flatten).flatten) ∧
    ((∀ j, j < (env.list dir).1.length → env.ctxDone j = false) →
      yielded env (env.list dir).1 0 = (env.list dir).1) := by
  have h := iterLoop_yielded env (printBlock env ctx r) (env.list dir).2
    (env.list dir).1 0 _ hs
  have hw := runAll_writes env ctx r (yielded env (env.list dir).1 0) _ hs
  unfold bktIter
  rw [h]
  exact ⟨rfl, hw.1, hw.2,
    fun hd => yielded_of_not_done env _ 0 (fun j hj => by simpa using hd j hj)⟩

/-- C4, on the sample bucket with the empty format: the entries `01ABC/` and `01DEF/`
give the two lines `01ABC` and `01DEF`, in that order. -/
theorem C4_enumeration_order_witness :
    yielded sampleEnv (sampleEnv.list []).1 0 = [ascii "01ABC/", ascii "01DEF/"] ∧
    (runBucketList sampleEnv (ascii "blocks") [] World.initial).2.writes
      = [ascii "01ABC\n", ascii "01DEF\n"] ∧
    (runBucketList sampleEnv (ascii "blocks") [] World.initial).2.stdout
      = ascii "01ABC\n01DEF\n" :=
  have h := C4_enumeration_order sampleEnv ⟨5 * minute⟩ .nameOnly [] World.initial
    ⟨rfl, rfl, trivial⟩
  ⟨rfl, h.2.1, h.2.2.1 (fun _ => rfl)⟩

/-! ## Abort on the first error -/

/-- The bucket calls and the streams after a metadata callback (either of the two). -/
theorem printBlock_meta_frame (env : Env Meta Tmpl) (ctx : Ctx) (r : Renderer Tmpl)
    (hr : r ≠ .nameOnly) (name : GoString) (w : World) :
    (printBlock env ctx r name w).2.calls
      = w.calls ++ [Call.get ctx (env.join name (ascii "meta.json"))] ∧
    (printBlock env ctx r name w).2.openStreams = w.openStreams := by
  cases r with
  | nameOnly => exact absurd rfl hr
  | json =>
    have := printBlockJSON_frame env ctx name w
    exact ⟨this.1, this.2.1⟩
  | template t =>
    have := printBlockTemplate_frame env ctx t name w
    exact ⟨this.1, this.2.1⟩

theorem printBlock_meta_decode_error (env : Env Meta Tmpl) (ctx : Ctx) (r : Renderer Tmpl)
    (hr : r ≠ .nameOnly) (name : GoString) (w : World) (body : GoString) (e : GoError)
    (h : env.get (env.join name (ascii "meta.json")) = .ok body)
    (hd : env.decode body = .error e) :
    (printBlock env ctx r name w).1 = Result.err (.wrap e (ascii "deocde meta.json")) ∧
    (printBlock env ctx r name w).2.stdout = w.stdout ∧
    (printBlock env ctx r name w).2.writes = w.writes := by
  cases r with
  | nameOnly => exact absurd rfl hr
  | json => exact printBlockJSON_decode_error env ctx name w body e h hd
  | template t => exact printBlockTemplate_decode_error env ctx t name w body e h hd

theorem runAll_meta_frame (env : Env Meta Tmpl) (ctx : Ctx) (r : Renderer Tmpl)
    (hr : r ≠ .nameOnly) (entries : List GoString) :
    ∀ w : World,
      (runAll (printBlock env ctx r) entries w).calls
        = w.calls ++ entries.map (fun x => Call.get ctx (env.join x (ascii "meta.json"))) ∧
      (runAll (printBlock env ctx r) entries w).openStreams = w.openStreams := by
  induction entries with
  | nil => intro w; simp [runAll]
  | cons e rest ih =>
    intro w
    have h1 := printBlock_meta_frame env ctx r hr e w
    have h2 := ih (printBlock env ctx r e w).2
    simp only [runAll, List.map_cons]
    exact ⟨by rw [h2.1, h1.1, List.append_assoc]; rfl, h2.2.trans h1.2⟩

/-- C3 as stated fails: in the sample bucket the metadata of the first entry is fetched
and decoded and that of the second entry does not decode (`N = 2`, `k = 2`), yet with
the template `{{.Nope}}` the first entry is not rendered: the callback fails on it
during the expansion, the walk stops there with the `execute template` error, nothing
is written and the second entry is never fetched. -/
theorem C3_render_failure_comes_first :
    yielded sampleEnv (sampleEnv.list []).1 0 = [ascii "01ABC/", ascii "01DEF/"] ∧
    sampleEnv.get (sampleEnv.join (ascii "01ABC/") (ascii "meta.json")) = .ok metaABC ∧
    sampleEnv.decode metaABC = .ok ⟨ascii "01ABC", 0, 100⟩ ∧
    sampleEnv.get (sampleEnv.join (ascii "01DEF/") (ascii "meta.json")) = .ok metaTruncated ∧
    sampleEnv.decode metaTruncated = .error (.base (ascii "unexpected EOF")) ∧
    selectRenderer sampleEnv tmplNope = .ok (.template tmplNope) ∧
    (printBlock sampleEnv ⟨5 * minute⟩ (.template tmplNope) (ascii "01ABC/")
      { World.initial with calls := [Call.iter ⟨5 * minute⟩ []] }).1
      = Result.err (.wrap (.base (ascii "template: :1:2: can't evaluate field Nope"))
          (ascii "execute template")) ∧
    (runBucketList sampleEnv (ascii "blocks") tmplNope World.initial).2.writes = [] ∧
    (runBucketList sampleEnv (ascii "blocks") tmplNope World.initial).2.stdout = [] ∧
    (runBucketList sampleEnv (ascii "blocks") tmplNope World.initial).2.calls
      = [Call.iter ⟨5 * minute⟩ [], Call.get ⟨5 * minute⟩ (ascii "01ABC/meta.json")] ∧
    (runBucketList sampleEnv (ascii "blocks") tmplNope World.initial).1
      = Result.err (.wrap (.base (ascii "template: :1:2: can't evaluate field Nope"))
          (ascii "execute template")) :=
  ⟨rfl, rfl, rfl, rfl, rfl, rfl, rfl, rfl, rfl, rfl, rfl⟩

/-- When the callbacks succeed on the yielded entries `pre` and the callback of the
next yielded entry returns an error, the loop stops there with that error. -/
theorem iterLoop_yielded_abort (env : Env Meta Tmpl) (f : GoString → World → Result × World)
    (listEnd : Option GoError) (ek : GoString) (post : List GoString) (x : GoError)
    (pre : List GoString) :
    ∀ (entries : List GoString) (k : Nat) (w : World),
      yielded env entries k = pre ++ ek :: post → allSucceed f pre w →
      (f ek (runAll f pre w)).1 = Result.err x →
      iterLoop env f listEnd entries k w
        = (Result.err (env.iterWrap x), (f ek (runAll f pre w)).2) := by
  induction pre with
  | nil =>
    intro entries k w hy _ hx
    obtain ⟨rest, he, hd, _⟩ := yielded_cons_inv env entries k ek post hy
    subst he
    exact iterLoop_cons_err env f listEnd ek rest k w x hd hx
  | cons p ps ih =>
    intro entries k w hy hs hx
    obtain ⟨rest, he, hd, hrest⟩ := yielded_cons_inv env entries k p (ps ++ ek :: post) hy
    subst he
    rw [iterLoop_cons_nil env f listEnd p rest k w hd hs.1]
    exact ih rest (k + 1) (f p w).2 hrest hs.2 hx

/-- C3, amended: let the entries the iteration yields be `pre ++ ek :: post`, let the
callbacks of the entries of `pre` succeed (fetch, decode and render), and let the
metadata of `ek` be fetched but fail to decode.  Then the walk with the Canonical-JSON
or the Template callback returns a failure (the decode error wrapped as
`deocde meta.json`, with the context of the enumeration added); the writes it added
are the renderings of the entries of `pre`, none for `ek`; the bucket calls are the
`Iter` and one `Get` per entry of `pre` and for `ek`, none for the entries of `post`;
and no stream is left open. -/
theorem C3_abort_on_first_error (env : Env Meta Tmpl) (ctx : Ctx) (r : Renderer Tmpl)
    (dir : GoString) (w : World) (pre : List GoString) (ek : GoString)
    (post : List GoString) (body : GoString) (e : GoError)
    (hr : r ≠ .nameOnly)
    (hy : yielded env (env.list dir).1 0 = pre ++ ek :: post)
    (hs : allSucceed (printBlock env ctx r) pre
      { w with calls := w.calls ++ [Call.iter ctx dir] })
    (hg : env.get (env.join ek (ascii "meta.json")) = .ok body)
    (hdec : env.decode body = .error e) :
    (bktIter env ctx dir (printBlock env ctx r) w).1
      = Result.err (env.iterWrap (.wrap e (ascii "deocde meta.json"))) ∧
    (bktIter env ctx dir (printBlock env ctx r) w).2.writes
      = w.writes ++ (pre.map (rendered env r)).flatten ∧
    ((∀ k, env.writeErr k = none) →
      (bktIter env ctx dir (printBlock env ctx r) w).2.stdout
        = w.stdout ++ ((pre.map (rendered env r)).flatten).flatten) ∧
    (bktIter env ctx dir (printBlock env ctx r) w).2.calls
      = w.calls ++ Call.iter ctx dir ::
          (pre ++ [ek]).map (fun x => Call.get ctx (env.join x (ascii "meta.json"))) ∧
    (bktIter env ctx dir (printBlock env ctx r) w).2.openStreams = w.openStreams := by
  have hk := printBlock_meta_decode_error env ctx r hr ek
    (runAll (printBlock env ctx r) pre { w with calls := w.calls ++ [Call.iter ctx dir] })
    body e hg hdec
  have hkf := printBlock_meta_frame env ctx r hr ek
    (runAll (printBlock env ctx r) pre { w with calls := w.calls ++ [Call.iter ctx dir] })
  have hrun := iterLoop_yielded_abort env (printBlock env ctx r) (env.list dir).2 ek post
    (.wrap e (ascii "deocde meta.json")) pre (env.list dir).1 0
    { w with calls := w.calls ++ [Call.iter ctx dir] } hy hs hk.1
  have hw := runAll_writes env ctx r pre _ hs
  have hf := runAll_meta_frame env ctx r hr pre
    { w with calls := w.calls ++ [Call.iter ctx dir] }
  unfold bktIter
  rw [hrun]
  refine ⟨rfl, ?_, ?_, ?_, ?_⟩
  · exact hk.2.2.trans hw.1
  · intro hacc
    exact hk.2.1.trans (hw.2 hacc)
  · rw [hkf.1, hf.1]
    simp
  · exact hkf.2.trans hf.2

/-- C3 amended, on the bucket of three entries with the format `json`: the first entry
is rendered, the second fails to decode, the walk stops with that error and the third
entry is never fetched. -/
theorem C3_abort_on_first_error_witness :
    yielded threeEntryEnv (threeEntryEnv.list []).1 0
      = [ascii "01ABC/", ascii "01DEF/", ascii "01GHI/"] ∧
    (runBucketList threeEntryEnv (ascii "blocks") (ascii "json") World.initial).1
      = Result.err (.wrap (.base (ascii "unexpected EOF")) (ascii "deocde meta.json")) ∧
    (runBucketList threeEntryEnv (ascii "blocks") (ascii "json") World.initial).2.writes
      = [ascii "\x7b\n\t\"ulid\": \"01ABC\"\n\x7d\n"] ∧
    (runBucketList threeEntryEnv (ascii "blocks") (ascii "json") World.initial).2.calls
      = [Call.iter ⟨5 * minute⟩ [], Call.get ⟨5 * minute⟩ (ascii "01ABC/meta.json"),
         Call.get ⟨5 * minute⟩ (ascii "01DEF/meta.json")] ∧
    (runBucketList threeEntryEnv (ascii "blocks") (ascii "json") World.initial).2.openStreams
      = [] :=
  have h := C3_abort_on_first_error threeEntryEnv ⟨5 * minute⟩ .json [] World.initial
    [ascii "01ABC/"] (ascii "01DEF/") [ascii "01GHI/"] metaTruncated
    (.base (ascii "unexpected EOF")) (by decide) rfl ⟨rfl, trivial⟩ rfl rfl
  ⟨rfl, h.1, h.2.1, h.2.2.2.1, h.2.2.2.2⟩

/-! ## The deadline -/

theorem iterLoop_cons_panic (env : Env Meta Tmpl) (f : GoString → World → Result × World)
    (listEnd : Option GoError) (e : GoString) (rest : List GoString) (k : Nat) (w : World)
    (hd : env.ctxDone k = false) (hf : (f e w).1 = Result.panic) :
    iterLoop env f listEnd (e :: rest) k w = (Result.panic, (f e w).2) := by
  rw [iterLoop]
  rcases hfe : f e w with ⟨r, w1⟩
  rw [hfe] at hf
  simp only at hf
  subst hf
  simp [hd]

theorem printBlockName_calls (env : Env Meta Tmpl) (name : GoString) (w : World) :
    (printBlockName env name w).2.calls = w.calls := by
  unfold printBlockName
  cases sliceTo name ((name.length : Int) - 1) with
  | none => rfl
  | some s => exact osWrite_calls env _ w

/-- Each callback adds to the trace nothing but `Get` calls made with its context. -/
theorem printBlock_calls (env : Env Meta Tmpl) (ctx : Ctx) (r : Renderer Tmpl)
    (name : GoString) (w : World) :
    ∃ gets, (printBlock env ctx r name w).2.calls = w.calls ++ gets ∧
      ∀ c ∈ gets, ∃ obj, c = Call.get ctx obj := by
  cases r with
  | nameOnly =>
    exact ⟨[], by simpa [printBlock] using printBlockName_calls env name w, by simp⟩
  | json =>
    exact ⟨_, (printBlockJSON_frame env ctx name w).1, by simp⟩
  | template t =>
    exact ⟨_, (printBlockTemplate_frame env ctx t name w).1, by simp⟩

theorem iterLoop_calls (env : Env Meta Tmpl) (ctx : Ctx) (r : Renderer Tmpl)
    (listEnd : Option GoError) (entries : List GoString) :
    ∀ (k : Nat) (w : World),
      ∃ gets, (iterLoop env (printBlock env ctx r) listEnd entries k w).2.calls
          = w.calls ++ gets ∧
        ∀ c ∈ gets, ∃ obj, c = Call.get ctx obj := by
  induction entries with
  | nil =>
    intro k w
    rw [iterLoop_nil]
    exact ⟨[], by simp, by simp⟩
  | cons e rest ih =>
    intro k w
    cases hdn : env.ctxDone k with
    | true =>
      rw [iterLoop_done env _ listEnd (e :: rest) k w hdn]
      exact ⟨[], by simp, by simp⟩
    | false =>
      obtain ⟨g1, hg1, hc1⟩ := printBlock_calls env ctx r e w
      cases hres : (printBlock env ctx r e w).1 with
      | nil =>
        rw [iterLoop_cons_nil env _ listEnd e rest k w hdn hres]
        obtain ⟨g2, hg2, hc2⟩ := ih (k + 1) (printBlock env ctx r e w).2
        refine ⟨g1 ++ g2, by rw [hg2, hg1, List.append_assoc], ?_⟩
        intro c hc
        rcases List.mem_append.mp hc with h | h
        · exact hc1 c h
        · exact hc2 c h
      | err x =>
        rw [iterLoop_cons_err env _ listEnd e rest k w x hdn hres]
        exact ⟨g1, hg1, hc1⟩
      | panic =>
        rw [iterLoop_cons_panic env _ listEnd e rest k w hdn hres]
        exact ⟨g1, hg1, hc1⟩

/-- C9: one context, made with the five-minute timeout, governs the walk: it is the
context of the `Iter` call and of every `Get` made during the enumeration, whichever
renderer was selected.  If that context is already done when the enumeration first
looks at it, the walk reports `DeadlineExceeded`, renders no entry (it writes nothing)
and fetches nothing. -/
theorem C9_single_deadline (env : Env Meta Tmpl) (bucket format : GoString) (w : World)
    (r : Renderer Tmpl) (hc : env.newClient = none) (hr : selectRenderer env format = .ok r) :
    (∃ gets, (runBucketList env bucket format w).2.calls
        = w.calls ++ Call.iter ⟨5 * minute⟩ [] :: gets ∧
      ∀ c ∈ gets, ∃ obj, c = Call.get ⟨5 * minute⟩ obj) ∧
    (env.ctxDone 0 = true →
      (runBucketList env bucket format w).1 = Result.err DeadlineExceeded ∧
      (runBucketList env bucket format w).2.writes = w.writes ∧
      (runBucketList env bucket format w).2.stdout = w.stdout ∧
      (runBucketList env bucket format w).2.calls = w.calls ++ [Call.iter ⟨5 * minute⟩ []]) := by
  have hrun : runBucketList env bucket format w
      = bktIter env ⟨5 * minute⟩ [] (printBlock env ⟨5 * minute⟩ r) w := by
    simp [runBucketList, hc, hr]
  rw [hrun]
  unfold bktIter
  constructor
  · obtain ⟨gets, hg, hall⟩ := iterLoop_calls env ⟨5 * minute⟩ r (env.list []).2
      (env.list []).1 0 { w with calls := w.calls ++ [Call.iter ⟨5 * minute⟩ []] }
    exact ⟨gets, by rw [hg]; simp, hall⟩
  · intro hdone
    rw [iterLoop_done env _ _ _ 0 _ hdone]
    exact ⟨rfl, rfl, rfl, rfl⟩

/-- C9, on the sample bucket with a context that is done from the start, in Name-Only
mode: the walk reports `DeadlineExceeded` and prints nothing. -/
theorem C9_single_deadline_witness :
    (runBucketList expiredEnv (ascii "blocks") [] World.initial).1
      = Result.err DeadlineExceeded ∧
    (runBucketList expiredEnv (ascii "blocks") [] World.initial).2.writes = [] ∧
    (runBucketList expiredEnv (ascii "blocks") [] World.initial).2.stdout = [] ∧
    (∃ gets, (runBucketList sampleEnv (ascii "blocks") (ascii "json") World.initial).2.calls
        = World.initial.calls ++ Call.iter ⟨5 * minute⟩ [] :: gets ∧
      ∀ c ∈ gets, ∃ obj, c = Call.get ⟨5 * minute⟩ obj) :=
  have h := (C9_single_deadline expiredEnv (ascii "blocks") [] World.initial .nameOnly
    rfl rfl).2 rfl
  ⟨h.1, h.2.1, h.2.2.1,
   (C9_single_deadline sampleEnv (ascii "blocks") (ascii "json") World.initial .json
    rfl rfl).1⟩

end Thanos
